import Mathlib

/-!
Verification development for the TrustChain repository.

This file gives a shallow embedding of the core data model and operations of
the repository (the verifiable append-only log `trustchain/v2/verifiable_log.py`,
the X.509 PKI layer `trustchain/v2/x509_pki.py`, and the tool-certificate
registry `trustchain/v2/certificate.py`) and proves the frozen claims about
them.  Pure helper functions (SHA-256, canonical JSON serialisation) are
implemented in full so that every definition is executable.
-/

set_option maxRecDepth 20000

namespace TrustChain

/-! ## Bytes and lower-case hex rendering -/

/-- Lower-case hexadecimal digit for a nibble (`0..15`). -/
def hexChar (n : Nat) : Char :=
  if n < 10 then Char.ofNat (48 + n) else Char.ofNat (87 + n)

/-- Two lower-case hex characters for one byte, as `"%02x"` does. -/
def byteHex (b : Nat) : String :=
  String.mk [hexChar (b / 16 % 16), hexChar (b % 16)]

/-- Lower-case hex string of a byte list (Python `bytes.hex()` /
`hashlib...hexdigest()`): the two hex characters of every byte, joined. -/
def bytesHex (bs : List Nat) : String :=
  String.mk ((bs.map byteHex).flatMap String.data)

/-- UTF-8 encoding of a single character, as a list of byte values. -/
def utf8Char (c : Char) : List Nat :=
  let n := c.toNat
  if n < 128 then [n]
  else if n < 2048 then [192 + n / 64, 128 + n % 64]
  else if n < 65536 then [224 + n / 4096, 128 + n / 64 % 64, 128 + n % 64]
  else [240 + n / 262144, 128 + n / 4096 % 64, 128 + n / 64 % 64, 128 + n % 64]

/-- UTF-8 encoding of a string (Python `str.encode("utf-8")`). -/
def utf8 (s : String) : List Nat :=
  (s.data.map utf8Char).flatten

/-! ## SHA-256 (FIPS 180-4), over byte lists, fully executable -/

/-- Truncation to a 32-bit word. -/
def w32 (n : Nat) : Nat := n % 4294967296

/-- Right rotation of a 32-bit word by `k` bits. -/
def rotr32 (k x : Nat) : Nat := w32 ((x >>> k) ||| (x <<< (32 - k)))

/-- Bitwise complement of a 32-bit word. -/
def not32 (x : Nat) : Nat := x ^^^ 4294967295

def ch32 (x y z : Nat) : Nat := (x &&& y) ^^^ (not32 x &&& z)

def maj32 (x y z : Nat) : Nat := (x &&& y) ^^^ (x &&& z) ^^^ (y &&& z)

def bsig0 (x : Nat) : Nat := rotr32 2 x ^^^ rotr32 13 x ^^^ rotr32 22 x

def bsig1 (x : Nat) : Nat := rotr32 6 x ^^^ rotr32 11 x ^^^ rotr32 25 x

def ssig0 (x : Nat) : Nat := rotr32 7 x ^^^ rotr32 18 x ^^^ (x >>> 3)

def ssig1 (x : Nat) : Nat := rotr32 17 x ^^^ rotr32 19 x ^^^ (x >>> 10)

/-- The 64 SHA-256 round constants. -/
def k256 : List Nat :=
  [1116352408, 1899447441, 3049323471, 3921009573, 961987163, 1508970993,
   2453635748, 2870763221, 3624381080, 310598401, 607225278, 1426881987,
   1925078388, 2162078206, 2614888103, 3248222580, 3835390401, 4022224774,
   264347078, 604807628, 770255983, 1249150122, 1555081692, 1996064986,
   2554220882, 2821834349, 2952996808, 3210313671, 3336571891, 3584528711,
   113926993, 338241895, 666307205, 773529912, 1294757372, 1396182291,
   1695183700, 1986661051, 2177026350, 2456956037, 2730485921, 2820302411,
   3259730800, 3345764771, 3516065817, 3600352804, 4094571909, 275423344,
   430227734, 506948616, 659060556, 883997877, 958139571, 1322822218,
   1537002063, 1747873779, 1955562222, 2024104815, 2227730452, 2361852424,
   2428436474, 2756734187, 3204031479, 3329325298]

/-- SHA-256 working state: eight 32-bit words. -/
structure Sha256State where
  a : Nat
  b : Nat
  c : Nat
  d : Nat
  e : Nat
  f : Nat
  g : Nat
  h : Nat
deriving Repr, DecidableEq

/-- Initial SHA-256 hash value. -/
def sha256Init : Sha256State :=
  ⟨1779033703, 3144134277, 1013904242, 2773480762,
   1359893119, 2600822924, 528734635, 1541459225⟩

/-- One SHA-256 compression round, consuming a `(Kt, Wt)` pair. -/
def sha256Round (st : Sha256State) (kw : Nat × Nat) : Sha256State :=
  let t1 := w32 (st.h + bsig1 st.e + ch32 st.e st.f st.g + kw.1 + kw.2)
  let t2 := w32 (bsig0 st.a + maj32 st.a st.b st.c)
  ⟨w32 (t1 + t2), st.a, st.b, st.c, w32 (st.d + t1), st.e, st.f, st.g⟩

/-- Big-endian 4-byte rendering of a 32-bit value. -/
def be32 (n : Nat) : List Nat :=
  [n / 16777216 % 256, n / 65536 % 256, n / 256 % 256, n % 256]

/-- Big-endian 8-byte rendering of a 64-bit value. -/
def be64 (n : Nat) : List Nat :=
  [n / 72057594037927936 % 256, n / 281474976710656 % 256,
   n / 1099511627776 % 256, n / 4294967296 % 256,
   n / 16777216 % 256, n / 65536 % 256, n / 256 % 256, n % 256]

/-- Group a byte list into big-endian 32-bit words. -/
def wordsOfBytes : List Nat → List Nat
  | a :: b :: c :: d :: rest => (((a * 256 + b) * 256 + c) * 256 + d) :: wordsOfBytes rest
  | _ => []

/-- Extend the 16 message-schedule words to 64, one word per fuel step. -/
def schedExt : Nat → List Nat → List Nat
  | 0, ws => ws
  | fuel + 1, ws =>
    let n := ws.length
    let wNew := w32 (ssig1 (ws.getD (n - 2) 0) + ws.getD (n - 7) 0 +
                     ssig0 (ws.getD (n - 15) 0) + ws.getD (n - 16) 0)
    schedExt fuel (ws ++ [wNew])

/-- Full 64-word message schedule from one 64-byte block. -/
def sha256Schedule (block : List Nat) : List Nat :=
  schedExt 48 (wordsOfBytes block)

/-- Compress one 64-byte block into the running state. -/
def sha256Compress (st : Sha256State) (block : List Nat) : Sha256State :=
  let fin := ((k256.zip (sha256Schedule block)).foldl sha256Round st)
  ⟨w32 (st.a + fin.a), w32 (st.b + fin.b), w32 (st.c + fin.c), w32 (st.d + fin.d),
   w32 (st.e + fin.e), w32 (st.f + fin.f), w32 (st.g + fin.g), w32 (st.h + fin.h)⟩

/-- SHA-256 padding: `0x80`, zeros to 56 mod 64, then the 64-bit bit length. -/
def sha256Pad (msg : List Nat) : List Nat :=
  msg ++ [128] ++ List.replicate ((119 - msg.length % 64) % 64) 0 ++ be64 (8 * msg.length)

/-- Split a byte list into 64-byte chunks (fuel-driven, fuel = list length). -/
def chunk64Go : Nat → List Nat → List (List Nat)
  | 0, _ => []
  | _, [] => []
  | fuel + 1, l => l.take 64 :: chunk64Go fuel (l.drop 64)

def chunk64 (l : List Nat) : List (List Nat) := chunk64Go l.length l

/-- SHA-256 digest of a byte list, as 32 bytes. -/
def sha256Bytes (msg : List Nat) : List Nat :=
  let st := (chunk64 (sha256Pad msg)).foldl sha256Compress sha256Init
  be32 st.a ++ be32 st.b ++ be32 st.c ++ be32 st.d ++
  be32 st.e ++ be32 st.f ++ be32 st.g ++ be32 st.h

/-- SHA-256 digest of a byte list, as 64 lower-case hex characters
(Python `hashlib.sha256(x).hexdigest()`). -/
def sha256Hex (msg : List Nat) : String := bytesHex (sha256Bytes msg)

example : sha256Hex (utf8 "abc") =
    "ba7816bf8f01cfea414140de5dae2223b00361a396177a9cb410ff61f20015ad" := by decide

example : sha256Hex (utf8 "The quick brown fox jumps over the lazy dog") =
    "d7a8fbb307d7809469ca9abcb0082e4f8d5651e46d3cdb762d02d0bf37c9e592" := by decide

/-! ## Python-style string helpers -/

/-- ASCII whitespace characters stripped by Python `str.strip()`. -/
def isPyWs (c : Char) : Bool :=
  c == ' ' || c == '\t' || c == '\n' || c == '\r' || c.toNat == 11 || c.toNat == 12

/-- Lexicographic code-point comparison of character lists (`≤`), matching how
Python orders `str` values. -/
def strLeChars : List Char → List Char → Bool
  | [], _ => true
  | _ :: _, [] => false
  | a :: as, b :: bs =>
    if a.toNat < b.toNat then true
    else if b.toNat < a.toNat then false
    else strLeChars as bs

/-- Python string order `a <= b` (by code points). -/
def pyStrLe (a b : String) : Bool := strLeChars a.data b.data

/-- Python slice `s[:n]` (first `n` code points). -/
def strTake (s : String) (n : Nat) : String := String.mk (s.data.take n)

/-- Python `str.strip()`: drop whitespace from both ends. -/
def pyStrip (s : String) : String :=
  String.mk (((s.data.dropWhile isPyWs).reverse.dropWhile isPyWs).reverse)

/-- Replace every `"\r\n"` by `"\n"` (Python `str.replace("\r\n", "\n")`). -/
def crlfToLf : List Char → List Char
  | '\r' :: '\n' :: rest => '\n' :: crlfToLf rest
  | c :: rest => c :: crlfToLf rest
  | [] => []

/-- ASCII lower-casing of a string (Python `str.lower()` on ASCII input). -/
def pyLower (s : String) : String := String.mk (s.data.map Char.toLower)

/-! ## Canonical JSON values and Python `json.dumps` -/

/-- JSON-representable values, as held by a record's `data` payload or
`metadata`.  Numbers are modelled as integers (the payloads the claims range
over use integral numbers).  Array and object spines are encoded inside the
one inductive (`anil`/`acons`, `onil`/`ocons`) so that every recursion over
values is plainly structural; `jarr` and `jobj` build well-formed values. -/
inductive Json where
  | null : Json
  | bool (b : Bool) : Json
  | num (n : Int) : Json
  | str (s : String) : Json
  | arr (spine : Json) : Json
  | obj (spine : Json) : Json
  | anil : Json
  | acons (hd tl : Json) : Json
  | onil : Json
  | ocons (key : String) (val tl : Json) : Json
deriving Repr, DecidableEq, Inhabited

/-- JSON array value from a list of values. -/
def jarr (l : List Json) : Json := .arr (l.foldr .acons .anil)

/-- JSON object value from a list of key/value pairs (in insertion order;
`dumps` sorts keys). -/
def jobj (l : List (String × Json)) : Json :=
  .obj (l.foldr (fun kv acc => .ocons kv.1 kv.2 acc) .onil)

/-- Four lower-case hex digits, for `\uXXXX` escapes. -/
def hex4 (n : Nat) : String :=
  String.mk [hexChar (n / 4096 % 16), hexChar (n / 256 % 16),
             hexChar (n / 16 % 16), hexChar (n % 16)]

/-- Escape one character exactly as Python `json.dumps` does with its default
`ensure_ascii=True`: named escapes for the common controls, `\uXXXX` for other
controls and for every non-ASCII character (surrogate pairs above the BMP). -/
def jsonEscChar (c : Char) : String :=
  if c = '"' then "\\\""
  else if c = '\\' then "\\\\"
  else if c = '\n' then "\\n"
  else if c = '\t' then "\\t"
  else if c = '\r' then "\\r"
  else if c.toNat = 8 then "\\b"
  else if c.toNat = 12 then "\\f"
  else if c.toNat < 32 then "\\u" ++ hex4 c.toNat
  else if c.toNat < 127 then String.singleton c
  else if c.toNat < 65536 then "\\u" ++ hex4 c.toNat
  else
    let v := c.toNat - 65536
    "\\u" ++ hex4 (55296 + v / 1024) ++ "\\u" ++ hex4 (56320 + v % 1024)

/-- JSON string literal with quotes, as `json.dumps` renders a `str`. -/
def jsonQuote (s : String) : String :=
  "\"" ++ String.join (s.data.map jsonEscChar) ++ "\""

/-- Insert one key/value pair into a key-sorted object spine (ascending by
code point, as Python `sorted` orders `str`). -/
def insByKey (k : String) (v : Json) : Json → Json
  | .ocons k2 v2 tl =>
    if pyStrLe k k2 then .ocons k v (.ocons k2 v2 tl)
    else .ocons k2 v2 (insByKey k v tl)
  | other => .ocons k v other

/-- Recursively sort every object's keys, as `json.dumps(..., sort_keys=True)`
does at each nesting level (object spines get insertion-sorted). -/
def sortJson : Json → Json
  | .arr sp => .arr (sortJson sp)
  | .obj sp => .obj (sortJson sp)
  | .acons h t => .acons (sortJson h) (sortJson t)
  | .ocons k v t => insByKey k (sortJson v) (sortJson t)
  | v => v

/-- Serialise a (key-sorted) value with Python's default separators. -/
def dumpsVal : Json → String
  | .null => "null"
  | .bool true => "true"
  | .bool false => "false"
  | .num n => toString n
  | .str s => jsonQuote s
  | .arr sp => "[" ++ dumpsVal sp ++ "]"
  | .obj sp => "\x7b" ++ dumpsVal sp ++ "\x7d"
  | .anil => ""
  | .acons h .anil => dumpsVal h
  | .acons h t => dumpsVal h ++ ", " ++ dumpsVal t
  | .onil => ""
  | .ocons k v .onil => jsonQuote k ++ ": " ++ dumpsVal v
  | .ocons k v t => jsonQuote k ++ ": " ++ dumpsVal v ++ ", " ++ dumpsVal t

/-- Python `json.dumps(v, sort_keys=True)` with the default separators
`(", ", ": ")` and default `ensure_ascii=True` — the canonical serialisation
used for record ids, leaf hashes and certificate extensions. -/
def dumps (v : Json) : String := dumpsVal (sortJson v)

example : dumps (jobj
    [("b", .num 1), ("a", jarr [.bool true, .null, .str "x\n\x7f"])]) =
    "\x7b\"a\": [true, null, \"x\\n\\u007f\"], \"b\": 1\x7d" := by decide

/-! ## Merkle engine

The repository imports `trustchain.v2.merkle` (`MerkleTree.from_chunks`,
`hash_data`, `MerkleProof`, `verify_proof`), whose source file is not present
under `src/`; only its callers are.  The functions below are therefore
modelled from the specification. -/

/-- Modelled from the spec: `hash_data` of the missing module
`trustchain/v2/merkle.py`.  Spec §3: leaves are SHA-256 of the canonical JSON
of each record; §4.3: all hashes are SHA-256 rendered as lower-case hex. -/
def hashData (s : String) : String := sha256Hex (utf8 s)

/-- Modelled from the spec: one bottom-up level of the Merkle tree built by
`MerkleTree.from_chunks` of the missing module `trustchain/v2/merkle.py`.
Spec §3: internal nodes are SHA-256 of the concatenation of their two
children; for odd levels the last node is duplicated. -/
def merkleLevel : List String → List String
  | a :: b :: rest => sha256Hex (utf8 (a ++ b)) :: merkleLevel rest
  | [a] => [sha256Hex (utf8 (a ++ a))]
  | [] => []

/-- Fuel-driven level iteration; the fuel (list length) dominates the number
of levels. -/
def merkleRootGo : Nat → List String → Option String
  | _, [] => none
  | _, [x] => some x
  | 0, _ => none
  | fuel + 1, xs => merkleRootGo fuel (merkleLevel xs)

/-- Modelled from the spec: the root of `MerkleTree.from_chunks(leaves)` of
the missing module `trustchain/v2/merkle.py`.  Spec §4.3: the root of a
single leaf is that leaf; empty input has no root (`none`). -/
def merkleRoot (leaves : List String) : Option String :=
  merkleRootGo leaves.length leaves

/-! ## Verifiable log (`trustchain/v2/verifiable_log.py`) -/

/-- Content-addressable id — `_content_id` (verifiable_log.py:91):
`sha256(f"{tool}|{json.dumps(data, sort_keys=True, default=str)}|{timestamp}|{signature}").hexdigest()[:12]`. -/
def contentId (tool : String) (data : Json) (timestamp signature : String) : String :=
  strTake (sha256Hex (utf8 (tool ++ "|" ++ dumps data ++ "|" ++ timestamp ++ "|" ++ signature))) 12

/-- One signed record, with the fields `VerifiableChainStore.append` stores. -/
structure ChainRecord where
  id : String
  seq : Nat
  tool : String
  timestamp : String
  data : Json
  signature : String
  signature_id : String
  parent_hash : Option String
  key_id : String
  algorithm : String
  latency_ms : Int
  session_id : Option String
  nonce : Option String
  metadata : Json
deriving Repr, DecidableEq

/-- Python `None`-or-`str` projected into JSON. -/
def optJson : Option String → Json
  | some s => .str s
  | none => .null

/-- The JSON object `append` serialises (key order is irrelevant — `dumps`
sorts keys, as `json.dumps(record, sort_keys=True, default=str)` does). -/
def recordJson (r : ChainRecord) : Json :=
  jobj [("id", .str r.id), ("seq", .num (r.seq : Int)), ("tool", .str r.tool),
        ("timestamp", .str r.timestamp), ("data", r.data),
        ("signature", .str r.signature), ("signature_id", .str r.signature_id),
        ("parent_hash", optJson r.parent_hash), ("key_id", .str r.key_id),
        ("algorithm", .str r.algorithm), ("latency_ms", .num r.latency_ms),
        ("session_id", optJson r.session_id), ("nonce", optJson r.nonce),
        ("metadata", r.metadata)]

/-- Big-endian 32-bit value of a 4-byte header (`struct.unpack(">I", ...)`). -/
def be32val (bs : List Nat) : Nat :=
  match bs with
  | [a, b, c, d] => ((a * 256 + b) * 256 + c) * 256 + d
  | _ => 0

/-- One framed record: `uint32_be length || payload || 0x0A`
(`_append_to_log`, verifiable_log.py:464). -/
def frameBytes (payload : List Nat) : List Nat :=
  be32 payload.length ++ payload ++ [10]

/-- The journal file is opened in append mode (`open(..., "ab")`): bytes are
only ever added at the end. -/
def appendToLog (log payload : List Nat) : List Nat :=
  log ++ frameBytes payload

/-- Frame-reading loop of `_iter_log_records` (verifiable_log.py:475): read a
4-byte header (stop if short), read the promised payload (stop if short),
skip one separator byte, yield the payload.  Payload bytes are yielded
directly; the source decodes them to `str` and every consumer re-encodes
(hashing) — the two compose to the identity on the UTF-8 payloads the store
writes. -/
def iterLogGo : Nat → List Nat → List (List Nat)
  | 0, _ => []
  | fuel + 1, bytes =>
    if bytes.length < 4 then []
    else
      let len := be32val (bytes.take 4)
      let rest := bytes.drop 4
      if rest.length < len then []
      else rest.take len :: iterLogGo fuel ((rest.drop len).drop 1)

/-- All complete framed records of a `chain.log` byte sequence. -/
def iterLog (bytes : List Nat) : List (List Nat) := iterLogGo bytes.length bytes

/-- In-memory state of a `VerifiableChainStore`: the `chain.log` bytes, the
`HEAD` file content (`none` = absent), the leaf-hash vector and `_length`.
The SQLite read projection is not modelled — no claim consults it. -/
structure StoreState where
  logBytes : List Nat
  headFile : Option String
  leafHashes : List String
  length : Nat
deriving Repr, DecidableEq

/-- A store over an empty directory (fresh log). -/
def emptyStore : StoreState :=
  { logBytes := [], headFile := none, leafHashes := [], length := 0 }

/-- Leaf hashes re-derived from the journal, as `verify` recomputes them
(`hash_data(record_json)` over `_iter_log_records`). -/
def leavesOfLog (bytes : List Nat) : List String :=
  (iterLog bytes).map sha256Hex

/-- Rebuild the in-memory state from the journal (`_load_log`,
verifiable_log.py:496), as done on re-open after a crash. -/
def loadStore (bytes : List Nat) (headContent : Option String) : StoreState :=
  { logBytes := bytes, headFile := headContent,
    leafHashes := leavesOfLog bytes, length := (iterLog bytes).length }

/-- Arguments of `VerifiableChainStore.append`, with the source's defaults;
the wall-clock timestamp is an explicit input. -/
structure AppendIn where
  tool : String
  data : Json
  signature : String
  timestamp : String
  signature_id : String := ""
  parentHash : Option String := none
  key_id : String := ""
  algorithm : String := "Ed25519"
  latency_ms : Int := 0
  session_id : Option String := none
  nonce : Option String := none
  metadata : Option Json := none
deriving Repr, DecidableEq

/-- `VerifiableChainStore.append` (verifiable_log.py:137): assign `seq`,
compute the content id, default the parent hash to the current Merkle root
when the caller passed `None` and the tree exists, frame-append the canonical
JSON to the journal, extend the leaf hashes, rebuild the tree and write the
new root to `HEAD`. -/
def appendOp (s : StoreState) (inp : AppendIn) : ChainRecord × StoreState :=
  let seq := s.length + 1
  let opId := contentId inp.tool inp.data inp.timestamp inp.signature
  let parent := match inp.parentHash with
    | some p => some p
    | none => merkleRoot s.leafHashes
  let r : ChainRecord :=
    { id := opId, seq := seq, tool := inp.tool, timestamp := inp.timestamp,
      data := inp.data, signature := inp.signature,
      signature_id := inp.signature_id, parent_hash := parent,
      key_id := inp.key_id, algorithm := inp.algorithm,
      latency_ms := inp.latency_ms, session_id := inp.session_id,
      nonce := inp.nonce, metadata := inp.metadata.getD (jobj []) }
  let rjson := dumps (recordJson r)
  let leaves := s.leafHashes ++ [hashData rjson]
  (r, { logBytes := appendToLog s.logBytes (utf8 rjson),
        headFile := merkleRoot leaves,
        leafHashes := leaves,
        length := seq })

/-- Fold a sequence of appends over a store. -/
def appendMany (s : StoreState) (l : List AppendIn) : StoreState :=
  l.foldl (fun st i => (appendOp st i).2) s

/-- The records returned by a sequence of appends, in order. -/
def traceRecords (s : StoreState) : List AppendIn → List ChainRecord
  | [] => []
  | i :: rest => (appendOp s i).1 :: traceRecords (appendOp s i).2 rest

/-- `_load_head` (verifiable_log.py:569): the `HEAD` text, stripped, or
`None` when the file is absent. -/
def loadHead (s : StoreState) : Option String := s.headFile.map pyStrip

/-- Result of `VerifiableChainStore.verify`, mirroring its two dict shapes
(the `verified_at` wall-clock field is omitted). -/
inductive VerifyOut where
  | emptyChain : VerifyOut
  | cmp (valid : Bool) (length : Nat) (storedRoot : Option String)
        (computedRoot : Option String) : VerifyOut
deriving Repr, DecidableEq

/-- The `valid` field of a `verify` result. -/
def VerifyOut.valid : VerifyOut → Bool
  | .emptyChain => true
  | .cmp v _ _ _ => v

/-- `VerifiableChainStore.verify` (verifiable_log.py:301): trivially valid on
an empty chain, otherwise recompute the leaf hashes from `chain.log`, rebuild
the tree, and compare its root with the stored `HEAD`.  A negative answer is
returned, never raised. -/
def verifyOp (s : StoreState) : VerifyOut :=
  if s.length = 0 then .emptyChain
  else
    let leaves := leavesOfLog s.logBytes
    let computed := merkleRoot leaves
    let stored := loadHead s
    .cmp (decide (computed = stored)) leaves.length stored computed

/-- Result of `VerifiableChainStore.consistency_proof`, mirroring its three
dict shapes. -/
inductive ConsistencyOut where
  | tooLong (oldLength curLength : Nat) : ConsistencyOut
  | emptyOld : ConsistencyOut
  | cmp (consistent : Bool) (oldLength : Nat) (oldRoot : String)
        (recomputedOldRoot : Option String) (curLength : Nat)
        (curRoot : Option String) : ConsistencyOut
deriving Repr, DecidableEq

/-- The `consistent` field of a `consistency_proof` result. -/
def ConsistencyOut.consistent : ConsistencyOut → Bool
  | .tooLong _ _ => false
  | .emptyOld => true
  | .cmp c _ _ _ _ _ => c

/-- `VerifiableChainStore.consistency_proof` (verifiable_log.py:366): reject
`old_length > current`, accept `old_length == 0`, otherwise rebuild the tree
over the first `old_length` leaves and compare roots. -/
def consistencyProof (s : StoreState) (oldLength : Nat) (oldRoot : String) :
    ConsistencyOut :=
  if s.length < oldLength then .tooLong oldLength s.length
  else if oldLength = 0 then .emptyOld
  else
    let oldTree := merkleRoot (s.leafHashes.take oldLength)
    .cmp (decide (oldTree = some oldRoot)) oldLength oldRoot oldTree
      s.length (merkleRoot s.leafHashes)

/-! ## X.509 PKI (`trustchain/v2/x509_pki.py`)

Ed25519 and the X.509 encoding come from the external `cryptography`
library (out of the core per spec §1); they are modelled abstractly: a
keypair is a `Nat` identifier, and a certificate's signature verifies under a
public key exactly when the key that signed it is that key (`sigKey`).  The
parent-agent-serial extension payload is `str(serial)` for every certificate
this PKI issues, so it is modelled as the carried integer. -/

/-- An X.509 certificate as `verify_cert` and the `AgentCertificate`
accessors consume it: subject CN, serial, validity window (UTC instants as
integers), the subject public key, the key that signed the certificate, and
the five custom AI extensions (absent = `none`).  The JSON-valued extensions
hold their raw UTF-8 payload string, exactly as stored in the extension. -/
structure CertX where
  subjectCN : String
  subjectOrg : String
  serial : Int
  notBefore : Int
  notAfter : Int
  pubKey : Nat
  sigKey : Nat
  isCA : Bool
  extModelHash : Option String := none
  extPromptHash : Option String := none
  extToolVersions : Option String := none
  extCapabilities : Option String := none
  extParentSerial : Option Int := none
deriving Repr, DecidableEq

/-- A `TrustChainCA`: name, private key, own certificate, revocation list
(serial, reason — the revocation timestamp is not consulted by any claim),
and the serial counter (`_next_serial`, starting at 1000). -/
structure CA where
  name : String
  privKey : Nat
  cert : CertX
  revoked : List (Int × String) := []
  nextSerial : Int := 1000
deriving Repr, DecidableEq

/-- `TrustChainCA.is_revoked` (x509_pki.py:378): membership of the serial in
the revocation dict. -/
def CA.isRevoked (ca : CA) (serial : Int) : Bool :=
  ca.revoked.any (fun e => e.1 == serial)

/-- `TrustChainCA.revoke` (x509_pki.py:367): record the serial with a reason
(dict assignment — only key membership matters to verification). -/
def CA.revoke (ca : CA) (serial : Int) (reason : String := "unspecified") : CA :=
  { ca with revoked := (serial, reason) :: ca.revoked }

/-- Result of `TrustChainCA.verify_cert` (`CertVerifyResult`,
x509_pki.py:550). -/
structure CertVerifyResult where
  valid : Bool
  errors : List String
  issuer : String
  subject : String
  serial : Int
  notAfter : Int
deriving Repr, DecidableEq

/-- `TrustChainCA.verify_cert` (x509_pki.py:415).  Checks, in order:
signature under this CA's certificate public key, `not_valid_before`,
`not_valid_after`, revocation of the certificate's own serial, and — when the
parent-agent-serial extension is present — revocation of the parent's serial.
Each failed check appends its error code; `valid` is emptiness of the list.
A negative answer is returned, never raised. -/
def verifyCert (ca : CA) (c : CertX) (now : Int) : CertVerifyResult :=
  let e1 := if c.sigKey ≠ ca.cert.pubKey then ["INVALID_SIGNATURE"] else []
  let e2 := if now < c.notBefore then ["NOT_YET_VALID"] else []
  let e3 := if now > c.notAfter then ["EXPIRED"] else []
  let e4 := if ca.isRevoked c.serial then ["REVOKED"] else []
  let e5 := match c.extParentSerial with
    | some p => if ca.isRevoked p then ["PARENT_REVOKED"] else []
    | none => []
  let errors := e1 ++ e2 ++ e3 ++ e4 ++ e5
  { valid := errors.isEmpty, errors := errors, issuer := ca.name,
    subject := c.subjectCN, serial := c.serial, notAfter := c.notAfter }

/-- Self-signature check done on the top of a chain
(`last.certificate.public_key().verify(...)`, x509_pki.py:727). -/
def selfSignedOk (c : CertX) : Bool := c.sigKey == c.pubKey

/-- The CA-to-CA links of `verify_chain`: for each `i`,
`chain[i+1].verify_cert(chain[i].certificate)` must be valid. -/
def caLinksOk : List CA → Int → Bool
  | a :: b :: rest, now =>
    (verifyCert b a.cert now).valid && caLinksOk (b :: rest) now
  | _, _ => true

/-- `AgentCertificate.verify_chain` (x509_pki.py:702): empty chain is
rejected; the leaf must verify against the first CA, each CA against the
next, and the last CA's certificate must be self-signed. -/
def verifyChain (leaf : CertX) (chain : List CA) (now : Int) : Bool :=
  match chain with
  | [] => false
  | ca0 :: rest =>
    (verifyCert ca0 leaf now).valid &&
    caLinksOk (ca0 :: rest) now &&
    (match (ca0 :: rest).getLast? with
     | some lastCA => selfSignedOk lastCA.cert
     | none => false)

/-- Arguments of `TrustChainCA.issue_agent_cert`, with the source's
defaults. -/
structure IssueArgs where
  agent_id : String
  model_hash : String := ""
  prompt_hash : String := ""
  tool_versions : List (String × String) := []
  capabilities : List String := []
  validity_hours : Int := 1
  organization : String := "TrustChain"
  parent_serial : Option Int := none
deriving Repr, DecidableEq

/-- The wrapper object `AgentCertificate` (x509_pki.py:572): certificate plus
the optional private key and issuer back-references, which PEM import leaves
empty. -/
structure AgentCertificate where
  certificate : CertX
  privateKey : Option Nat := none
  issuerCA : Option CA := none
  serialArg : Option Int := none
deriving Repr, DecidableEq

/-- `TrustChainCA.issue_agent_cert` (x509_pki.py:220): draw the next serial,
build a leaf certificate (CA=false) valid for `validity_hours` hours from
`now`, attach each AI extension only when its argument is non-empty
(Python truthiness), serialise `tool_versions` and `capabilities` with
`json.dumps(..., sort_keys=True)`, and sign with this CA's private key.  The
fresh agent Ed25519 keypair is an explicit input `agentKey`. -/
def issueAgentCert (ca : CA) (args : IssueArgs) (now : Int) (agentKey : Nat) :
    AgentCertificate × CA :=
  let serial := ca.nextSerial + 1
  let cert : CertX :=
    { subjectCN := args.agent_id
      subjectOrg := args.organization
      serial := serial
      notBefore := now
      notAfter := now + 3600 * args.validity_hours
      pubKey := agentKey
      sigKey := ca.privKey
      isCA := false
      extModelHash := if args.model_hash = "" then none else some args.model_hash
      extPromptHash := if args.prompt_hash = "" then none else some args.prompt_hash
      extToolVersions :=
        if args.tool_versions = [] then none
        else some (dumps (jobj (args.tool_versions.map (fun kv => (kv.1, Json.str kv.2)))))
      extCapabilities :=
        if args.capabilities = [] then none
        else some (dumps (jarr (args.capabilities.map Json.str)))
      extParentSerial := args.parent_serial }
  (⟨cert, some agentKey, some { ca with nextSerial := serial }, some serial⟩,
   { ca with nextSerial := serial })

/-! ### `AgentCertificate` accessors (x509_pki.py:593-694) -/

/-- `agent_id`: the subject common name. -/
def AgentCertificate.agentId (a : AgentCertificate) : String :=
  a.certificate.subjectCN

/-- `serial_number`: read from the certificate, not from the constructor
argument. -/
def AgentCertificate.serialNumber (a : AgentCertificate) : Int :=
  a.certificate.serial

/-- `model_hash`: the custom-OID string, or `""` when absent. -/
def AgentCertificate.modelHash (a : AgentCertificate) : String :=
  a.certificate.extModelHash.getD ""

/-- `prompt_hash`: the custom-OID string, or `""` when absent. -/
def AgentCertificate.promptHash (a : AgentCertificate) : String :=
  a.certificate.extPromptHash.getD ""

/-- `parent_serial`: the parent-agent serial, or `None` when top-level. -/
def AgentCertificate.parentSerial (a : AgentCertificate) : Option Int :=
  a.certificate.extParentSerial

/-- `not_before` / `not_after` accessors. -/
def AgentCertificate.notBeforeT (a : AgentCertificate) : Int :=
  a.certificate.notBefore

def AgentCertificate.notAfterT (a : AgentCertificate) : Int :=
  a.certificate.notAfter

/-- `to_pem` (x509_pki.py:755) followed by `from_pem` (x509_pki.py:762).
The external `cryptography` PEM codec is modelled as lossless on the
certificate (spec §6: "Agent PEM: standard PEM-encoded X.509 certificate; all
custom OID values round-trip"); `from_pem` builds the wrapper with only the
certificate, dropping private key, issuer and the serial argument. -/
def AgentCertificate.toPem (a : AgentCertificate) : CertX := a.certificate

def AgentCertificate.fromPem (pem : CertX) : AgentCertificate :=
  { certificate := pem }

/-! ## A JSON reader, modelling Python `json.loads` on the payloads at hand

Used by the `tool_versions` / `capabilities` accessors.  Numbers are read as
integers (every JSON payload this PKI writes into an extension serialises
strings and integers only); a malformed payload — where `json.loads` raises —
is `none`. -/

/-- JSON insignificant whitespace. -/
def skipWs (cs : List Char) : List Char :=
  cs.dropWhile (fun c => c == ' ' || c == '\t' || c == '\n' || c == '\r')

def isDigitCh (c : Char) : Bool := 48 ≤ c.toNat && c.toNat ≤ 57

/-- Value of a hex digit, for `\uXXXX` escapes. -/
def hexDigitVal (c : Char) : Option Nat :=
  if 48 ≤ c.toNat ∧ c.toNat ≤ 57 then some (c.toNat - 48)
  else if 97 ≤ c.toNat ∧ c.toNat ≤ 102 then some (c.toNat - 87)
  else if 65 ≤ c.toNat ∧ c.toNat ≤ 70 then some (c.toNat - 55)
  else none

/-- Read a JSON string body (opening quote already consumed), handling the
standard escapes. -/
def parseStrGo : List Char → List Char → Option (String × List Char)
  | acc, '"' :: rest => some (String.mk acc.reverse, rest)
  | acc, '\\' :: '"' :: rest => parseStrGo ('"' :: acc) rest
  | acc, '\\' :: '\\' :: rest => parseStrGo ('\\' :: acc) rest
  | acc, '\\' :: '/' :: rest => parseStrGo ('/' :: acc) rest
  | acc, '\\' :: 'n' :: rest => parseStrGo ('\n' :: acc) rest
  | acc, '\\' :: 't' :: rest => parseStrGo ('\t' :: acc) rest
  | acc, '\\' :: 'r' :: rest => parseStrGo ('\r' :: acc) rest
  | acc, '\\' :: 'b' :: rest => parseStrGo (Char.ofNat 8 :: acc) rest
  | acc, '\\' :: 'f' :: rest => parseStrGo (Char.ofNat 12 :: acc) rest
  | acc, '\\' :: 'u' :: a :: b :: c :: d :: rest2 =>
    (match hexDigitVal a, hexDigitVal b, hexDigitVal c, hexDigitVal d with
     | some x, some y, some z, some w =>
       parseStrGo (Char.ofNat (((x * 16 + y) * 16 + z) * 16 + w) :: acc) rest2
     | _, _, _, _ => none)
  | _, '\\' :: _ => none
  | acc, c :: rest => parseStrGo (c :: acc) rest
  | _, [] => none

/-- Read a run of decimal digits into a `Nat` accumulator. -/
def digitsGo : List Char → Nat → Nat × List Char
  | c :: rest, acc =>
    if isDigitCh c then digitsGo rest (acc * 10 + (c.toNat - 48)) else (acc, c :: rest)
  | [], acc => (acc, [])

/-- Recursive-descent JSON reader; the fuel (one unit per element) dominates
the input length.  Array and object continuations re-enter through the
opening bracket so the whole reader is one structural recursion on fuel. -/
def parseJsonGo : Nat → List Char → Option (Json × List Char)
  | 0, _ => none
  | fuel + 1, cs =>
    match skipWs cs with
    | 'n' :: 'u' :: 'l' :: 'l' :: rest => some (.null, rest)
    | 't' :: 'r' :: 'u' :: 'e' :: rest => some (.bool true, rest)
    | 'f' :: 'a' :: 'l' :: 's' :: 'e' :: rest => some (.bool false, rest)
    | '"' :: rest => (parseStrGo [] rest).map (fun p => (.str p.1, p.2))
    | '[' :: rest =>
      (match skipWs rest with
       | ']' :: rest2 => some (.arr .anil, rest2)
       | body =>
         match parseJsonGo fuel body with
         | none => none
         | some (v, after) =>
           match skipWs after with
           | ']' :: rest2 => some (.arr (.acons v .anil), rest2)
           | ',' :: rest2 =>
             (match parseJsonGo fuel ('[' :: rest2) with
              | some (.arr spine, rest3) => some (.arr (.acons v spine), rest3)
              | _ => none)
           | _ => none)
    | '\x7b' :: rest =>
      (match skipWs rest with
       | '\x7d' :: rest2 => some (.obj .onil, rest2)
       | '"' :: body =>
         (match parseStrGo [] body with
          | none => none
          | some (k, afterKey) =>
            match skipWs afterKey with
            | ':' :: rest2 =>
              (match parseJsonGo fuel rest2 with
               | none => none
               | some (v, after) =>
                 match skipWs after with
                 | '\x7d' :: rest3 => some (.obj (.ocons k v .onil), rest3)
                 | ',' :: rest3 =>
                   (match parseJsonGo fuel ('\x7b' :: rest3) with
                    | some (.obj spine, rest4) => some (.obj (.ocons k v spine), rest4)
                    | _ => none)
                 | _ => none)
            | _ => none)
       | _ => none)
    | '-' :: rest =>
      (match rest with
       | c :: _ =>
         if isDigitCh c then
           let p := digitsGo rest 0
           some (.num (-(p.1 : Int)), p.2)
         else none
       | [] => none)
    | c :: rest =>
      if isDigitCh c then
        let p := digitsGo (c :: rest) 0
        some (.num (p.1 : Int), p.2)
      else none
    | [] => none

/-- Python `json.loads` on a whole string (trailing whitespace allowed,
trailing garbage rejected). -/
def jsonLoads (s : String) : Option Json :=
  match parseJsonGo (s.length + 1) s.data with
  | some (v, rest) => if (skipWs rest).isEmpty then some v else none
  | none => none

example : jsonLoads "\x7b\"a\": [1, -2], \"b\": null\x7d" =
    some (.obj (.ocons "a" (.arr (.acons (.num 1) (.acons (.num (-2)) .anil)))
      (.ocons "b" .null .onil))) := by decide

/-- `tool_versions` accessor (x509_pki.py:629): `json.loads` of the extension
payload, or `{}` when the extension is absent; a payload on which `json.loads`
raises is `none`. -/
def AgentCertificate.toolVersions (a : AgentCertificate) : Option Json :=
  match a.certificate.extToolVersions with
  | some raw => jsonLoads raw
  | none => some (jobj [])

/-- `capabilities` accessor (x509_pki.py:637): `json.loads` of the extension
payload, or `[]` when the extension is absent. -/
def AgentCertificate.capList (a : AgentCertificate) : Option Json :=
  match a.certificate.extCapabilities with
  | some raw => jsonLoads raw
  | none => some (jarr [])

/-! ## Timestamps: `datetime.fromisoformat`

`ToolCertificate.is_valid` parses `expires_at` with
`datetime.fromisoformat` and compares the result with
`datetime.now(timezone.utc)`.  The model distinguishes the three outcomes
that matter to the source: a string `fromisoformat` rejects (`ValueError`,
caught by `is_valid`), a string that parses to a timezone-NAIVE datetime
(whose later comparison with the aware `now` raises an uncaught
`TypeError`), and a string that parses to an aware datetime (compared as UTC
microseconds).  The modelled grammar is
`YYYY-MM-DD[<sep>HH[:MM[:SS[.f{1,6}]]]][+HH:MM|-HH:MM|Z]`, the common core
of `fromisoformat`; a trailing offset makes the result aware, its absence
makes it naive. -/

/-- Outcome of `datetime.fromisoformat` as `is_valid` consumes it. -/
inductive IsoResult where
  | err : IsoResult
  | naive (t : Int) : IsoResult
  | aware (t : Int) : IsoResult
deriving Repr, DecidableEq

def c2d (c : Char) : Option Nat :=
  if isDigitCh c then some (c.toNat - 48) else none

/-- Days between a civil date and 1970-01-01 (Gregorian, Hinnant's
algorithm). -/
def daysFromCivil (y m d : Int) : Int :=
  let yAdj := if m ≤ 2 then y - 1 else y
  let era := (if yAdj ≥ 0 then yAdj else yAdj - 399) / 400
  let yoe := yAdj - era * 400
  let mp := if m > 2 then m - 3 else m + 9
  let doy := (153 * mp + 2) / 5 + d - 1
  let doe := yoe * 365 + yoe / 4 - yoe / 100 + doy
  era * 146097 + doe - 719468

/-- Read exactly two digits. -/
def two (a b : Char) : Option Nat :=
  match c2d a, c2d b with
  | some x, some y => some (10 * x + y)
  | _, _ => none

/-- Read one to six fractional-second digits into microseconds; a seventh
digit is left unconsumed (and then rejects, as `fromisoformat` does). -/
def fracGo : List Char → Nat → Nat → Nat × List Char
  | c :: rest, acc, mult =>
    if isDigitCh c ∧ mult > 1 then
      fracGo rest (acc * 10 + (c.toNat - 48)) (mult / 10)
    else (acc * mult, c :: rest)
  | [], acc, mult => (acc * mult, [])

/-- Offset suffix: `+HH:MM`, `-HH:MM`, or `Z`. -/
def parseOffset : List Char → Option Int
  | ['Z'] => some 0
  | ['z'] => some 0
  | ['+', h1, h2, ':', m1, m2] =>
    (match two h1 h2, two m1 m2 with
     | some h, some m => some ((h * 3600 + m * 60 : Nat) : Int)
     | _, _ => none)
  | ['-', h1, h2, ':', m1, m2] =>
    (match two h1 h2, two m1 m2 with
     | some h, some m => some (-((h * 3600 + m * 60 : Nat) : Int))
     | _, _ => none)
  | _ => none

/-- Finish a timestamp after the last time component: nothing left ⇒ naive;
a fraction (only after seconds) then possibly an offset; an offset ⇒ aware;
anything else ⇒ `ValueError`. -/
def isoFinish (totalSec : Int) (allowFrac : Bool) : List Char → IsoResult
  | [] => .naive (totalSec * 1000000)
  | '.' :: fr =>
    if allowFrac then
      (match fr with
       | c :: _ =>
         if isDigitCh c then
           let p := fracGo fr 0 1000000
           (match p.2 with
            | [] => .naive (totalSec * 1000000 + (p.1 : Int))
            | off =>
              (match parseOffset off with
               | some o => .aware ((totalSec - o) * 1000000 + (p.1 : Int))
               | none => .err))
         else .err
       | [] => .err)
    else .err
  | off =>
    (match parseOffset off with
     | some o => .aware ((totalSec - o) * 1000000)
     | none => .err)

/-- Time-of-day part after the separator: `HH[:MM[:SS[.frac]]]`. -/
def parseIsoTime (daySec : Int) : List Char → IsoResult
  | h1 :: h2 :: rest =>
    (match two h1 h2 with
     | some hh =>
       (match rest with
        | ':' :: mi1 :: mi2 :: rest2 =>
          (match two mi1 mi2 with
           | some mi =>
             (match rest2 with
              | ':' :: s1 :: s2 :: rest3 =>
                (match two s1 s2 with
                 | some ss =>
                   isoFinish (daySec + ((hh * 3600 + mi * 60 + ss : Nat) : Int)) true rest3
                 | none => .err)
              | rest3 =>
                isoFinish (daySec + ((hh * 3600 + mi * 60 : Nat) : Int)) false rest3)
           | none => .err)
        | rest2 => isoFinish (daySec + ((hh * 3600 : Nat) : Int)) false rest2)
     | none => .err)
  | _ => .err

/-- Python `datetime.fromisoformat`, with the outcome `is_valid` sees:
`err` for a `ValueError`, `naive`/`aware` for a parsed datetime without/with
a UTC offset (values in microseconds on the UTC timeline). -/
def parseIso (s : String) : IsoResult :=
  match s.data with
  | y1 :: y2 :: y3 :: y4 :: '-' :: mo1 :: mo2 :: '-' :: d1 :: d2 :: tail =>
    (match c2d y1, c2d y2, c2d y3, c2d y4, two mo1 mo2, two d1 d2 with
     | some a, some b, some c, some d, some mo, some dd =>
       let year := ((a * 10 + b) * 10 + c) * 10 + d
       let daySec : Int := daysFromCivil (year : Int) (mo : Int) (dd : Int) * 86400
       (match tail with
        | [] => .naive (daySec * 1000000)
        | _sep :: rest => parseIsoTime daySec rest)
     | _, _, _, _, _, _ => .err)
  | _ => .err

example : parseIso "never" = .err := by decide
example : parseIso "2024-01-02T00:00:00+00:00" =
    .aware ((19724 : Int) * 86400000000) := by decide
example : parseIso "2020-01-01T00:00:00" =
    .naive ((18262 : Int) * 86400000000) := by decide
example : parseIso "2020-01-01" = .naive ((18262 : Int) * 86400000000) := by decide
example : parseIso "2020-01-01T00:00:00.5+00:00" =
    .aware ((18262 : Int) * 86400000000 + 500000) := by decide

/-! ## Tool-certificate registry (`trustchain/v2/certificate.py`) -/

/-- `ToolCertificate` dataclass (certificate.py:45), with its defaults. -/
structure ToolCertificate where
  tool_name : String
  tool_module : String
  version : String := "1.0.0"
  code_hash : String := ""
  code_hash_algorithm : String := "sha256"
  issuer : String := "self-signed"
  issuer_key_id : String := ""
  signature : String := ""
  trust_level : String := "self-signed"
  issued_at : String := ""
  expires_at : String := ""
  revoked : Bool := false
  revocation_reason : String := ""
  owner : String := ""
  organization : String := ""
  description : String := ""
  permissions : List String := []
deriving Repr, DecidableEq

/-- `ToolCertificate.is_valid` (certificate.py:85): `False` when revoked;
else, when `expires_at` is non-empty, parse it — a `ValueError` is swallowed
(`pass`) and the certificate counts as valid; a timezone-NAIVE parse makes
the comparison `exp < datetime.now(timezone.utc)` raise an uncaught
`TypeError` (only `ValueError` is caught), modelled as the `error` outcome;
an aware parse gives `False` exactly when the expiry is strictly before
`now`. -/
def ToolCertificate.isValid (c : ToolCertificate) (now : Int) :
    Except Unit Bool :=
  if c.revoked then .ok false
  else if c.expires_at ≠ "" then
    match parseIso c.expires_at with
    | .aware exp => if exp < now then .ok false else .ok true
    | .naive _ => .error ()
    | .err => .ok true
  else .ok true

/-- A Python tool function as the registry sees it: `__qualname__`,
`__module__`, and its source text when `inspect.getsource` succeeds
(`none` models the `OSError`/`TypeError` fallback path). -/
structure PyFunc where
  qualname : String
  moduleName : String
  source : Option String := none
deriving Repr, DecidableEq

/-- `compute_code_hash` (certificate.py:105): SHA-256 of the stripped,
LF-normalised source, falling back to `f"{module}.{qualname}"` when source is
unobtainable. -/
def computeCodeHash (f : PyFunc) : String :=
  match f.source with
  | some src => sha256Hex (utf8 (String.mk (crlfToLf (pyStrip src).data)))
  | none => sha256Hex (utf8 (f.moduleName ++ "." ++ f.qualname))

/-- One violation entry recorded by `_record_violation`
(certificate.py:310). -/
structure Violation where
  tool : String
  type : String
  detail : String
  timestamp : String
deriving Repr, DecidableEq

/-- Registry state: certificates keyed by `f"{module}.{qualname}"`, and the
violation log. -/
structure RegistryState where
  certs : List (String × ToolCertificate) := []
  violations : List Violation := []
deriving Repr, DecidableEq

/-- `self._certs.get(registry_key)`. -/
def lookupCert (reg : RegistryState) (key : String) : Option ToolCertificate :=
  (reg.certs.find? (fun e => e.1 == key)).map (fun e => e.2)

/-- `_record_violation`: append an entry with type, detail and timestamp. -/
def addViolation (reg : RegistryState) (toolKey vtype detail ts : String) :
    RegistryState :=
  { reg with violations := reg.violations ++ [⟨toolKey, vtype, detail, ts⟩] }

/-- `ToolRegistry.verify` (certificate.py:232): check certificate existence,
then validity (recording `REVOKED` or `EXPIRED`), then the code hash
(recording `CODE_TAMPERED`); each miss records one violation and returns
`False`.  An exception raised by `cert.is_valid` (the naive-`expires_at`
`TypeError`) propagates out of `verify` uncaught — the `error` outcome.
The wall clock enters as `now` (for expiry) and `ts` (the violation
timestamp). -/
def registryVerify (reg : RegistryState) (f : PyFunc) (now : Int) (ts : String) :
    Except Unit (Bool × RegistryState) :=
  let key := f.moduleName ++ "." ++ f.qualname
  match lookupCert reg key with
  | none =>
    .ok (false, addViolation reg key "NO_CERTIFICATE" "Tool has no certificate" ts)
  | some cert =>
    match cert.isValid now with
    | .error e => .error e
    | .ok valid =>
      if ¬ valid then
        let reason := if cert.revoked then "REVOKED" else "EXPIRED"
        .ok (false, addViolation reg key reason ("Certificate is " ++ pyLower reason) ts)
      else
        let currentHash := computeCodeHash f
        if currentHash ≠ cert.code_hash then
          .ok (false, addViolation reg key "CODE_TAMPERED"
            ("Code hash mismatch: expected " ++ strTake cert.code_hash 16 ++
             "..., got " ++ strTake currentHash 16 ++ "...") ts)
        else .ok (true, reg)

/-- Validity of a tool certificate as claim C8 words it — "not revoked and
its expires-at is empty or in the future" — written for comparison with the
source's `is_valid`.  (Refinement-comparison definition; it follows the
claim's words, not the code: any parsed expiry later than now counts as "in
the future", and an unparsable one is neither empty nor in the future.) -/
def specToolCertValid (c : ToolCertificate) (now : Int) : Bool :=
  !c.revoked &&
    (c.expires_at == "" ||
      (match parseIso c.expires_at with
       | .aware t => decide (now < t)
       | .naive t => decide (now < t)
       | .err => false))

/-! ## Concrete inputs used by witnesses and counterexamples -/

/-- A genesis append input (scenario 1 of spec §8). -/
def c1In : AppendIn where
  tool := "bash"
  data := jobj [("cmd", .str "ls")]
  signature := "sig_A"
  timestamp := "2024-01-01T00:00:00+00:00"

/-- The record the genesis append returns. -/
def c1Rec : ChainRecord := (appendOp emptyStore c1In).1

example : c1Rec.id = "f2344a555b73" := by decide

example : dumps (recordJson c1Rec) =
  "\x7b\"algorithm\": \"Ed25519\", \"data\": \x7b\"cmd\": \"ls\"\x7d, \"id\": \"f2344a555b73\", \"key_id\": \"\", \"latency_ms\": 0, \"metadata\": \x7b\x7d, \"nonce\": null, \"parent_hash\": null, \"seq\": 1, \"session_id\": null, \"signature\": \"sig_A\", \"signature_id\": \"\", \"timestamp\": \"2024-01-01T00:00:00+00:00\", \"tool\": \"bash\"\x7d" := by decide

example : (appendOp emptyStore c1In).2.leafHashes =
  ["60086f8decbe7e774308fddd0a4fce93d1ce73e013f03d8e9510b5be02b0485f"] := by decide

/-- A journal whose final frame is truncated: one complete frame carrying
`"r1"`, then a 4-byte header promising 1024 payload bytes that are not
there. -/
def c9Bytes : List Nat := frameBytes (utf8 "r1") ++ [0, 0, 4, 0]

/-- The store as `_load_log` reconstructs it over that crashed journal. -/
def c9Store : StoreState := loadStore c9Bytes (some (hashData "r1"))

/-- The append executed on the crashed store. -/
def c9In : AppendIn where
  tool := "t"
  data := Json.null
  signature := "s"
  timestamp := "ts"

/-- A tool function with a concrete one-line source. -/
def c8Func : PyFunc where
  qualname := "my_tool"
  moduleName := "mymod"
  source := some "def my_tool():\n    return 1\n"

/-- A certificate for `c8Func` whose `expires_at` is the unparsable string
`"never"` — neither empty nor a time in the future. -/
def c8Cert : ToolCertificate where
  tool_name := "my_tool"
  tool_module := "mymod"
  code_hash := computeCodeHash c8Func
  issued_at := "2024-01-01T00:00:00+00:00"
  expires_at := "never"

/-- A registry holding exactly `c8Cert`. -/
def c8Reg : RegistryState where
  certs := [("mymod.my_tool", c8Cert)]

/-- A certificate for `c8Func` whose `expires_at` parses to a
timezone-naive datetime (exactly what `datetime.now().isoformat()` emits) —
the source's `is_valid` raises an uncaught `TypeError` on it. -/
def c8CertNaive : ToolCertificate where
  tool_name := "my_tool"
  tool_module := "mymod"
  code_hash := computeCodeHash c8Func
  issued_at := "2019-01-01T00:00:00+00:00"
  expires_at := "2020-01-01T00:00:00"

/-- A registry holding exactly `c8CertNaive`. -/
def c8RegNaive : RegistryState where
  certs := [("mymod.my_tool", c8CertNaive)]

/-- A two-leaf store state satisfying the length invariant. -/
def c4Store : StoreState where
  logBytes := []
  headFile := none
  leafHashes := ["a", "b"]
  length := 2

/-- An issuing CA whose private key matches its certificate's public key
(keypair 2), itself signed by a root keypair 1. -/
def c5CA : CA where
  name := "TrustChain Platform CA"
  privKey := 2
  cert :=
    { subjectCN := "TrustChain Platform CA"
      subjectOrg := "TrustChain"
      serial := 500
      notBefore := 0
      notAfter := 1000000
      pubKey := 2
      sigKey := 1
      isCA := true }

/-- A sub-agent certificate issued by `c5CA` carrying parent serial 900. -/
def c5Sub : CertX :=
  ((issueAgentCert c5CA
    { agent_id := "agent-b", parent_serial := some 900 } 0 7).1).certificate

end TrustChain

/-! # Supporting lemmas -/

namespace TrustChain

theorem merkleLevel_length (xs : List String) :
    (merkleLevel xs).length = (xs.length + 1) / 2 := by
  induction xs using merkleLevel.induct with
  | case1 a b rest ih => simp [merkleLevel, ih]; omega
  | case2 a => simp [merkleLevel]
  | case3 => simp [merkleLevel]

theorem merkleRootGo_isSome :
    ∀ (fuel : Nat) (xs : List String), xs ≠ [] → xs.length ≤ fuel →
      (merkleRootGo fuel xs).isSome = true := by
  intro fuel
  induction fuel with
  | zero =>
    intro xs hne hle
    interval_cases h : xs.length
    · exact absurd (List.length_eq_zero.mp h) hne
  | succ n ih =>
    intro xs hne hle
    match xs with
    | [x] => simp [merkleRootGo]
    | a :: b :: rest =>
      show (merkleRootGo n (merkleLevel (a :: b :: rest))).isSome = true
      have hll := merkleLevel_length (a :: b :: rest)
      apply ih
      · intro hnil
        rw [hnil] at hll
        simp at hll
        omega
      · rw [hll]
        simp only [List.length_cons] at hle ⊢
        omega

theorem merkleRoot_eq_none_iff (xs : List String) :
    merkleRoot xs = none ↔ xs = [] := by
  constructor
  · intro h
    by_contra hne
    have := merkleRootGo_isSome xs.length xs hne le_rfl
    rw [show merkleRootGo xs.length xs = merkleRoot xs from rfl, h] at this
    simp at this
  · rintro rfl
    rfl

theorem appendOp_leafHashes (s : StoreState) (i : AppendIn) :
    ∃ h, (appendOp s i).2.leafHashes = s.leafHashes ++ [h] :=
  ⟨_, rfl⟩

theorem appendOp_length (s : StoreState) (i : AppendIn) :
    (appendOp s i).2.length = s.length + 1 := rfl

theorem appendOp_headFile (s : StoreState) (i : AppendIn) :
    (appendOp s i).2.headFile = merkleRoot ((appendOp s i).2.leafHashes) := rfl

theorem appendMany_leafHashes :
    ∀ (l : List AppendIn) (s : StoreState),
      ∃ t, (appendMany s l).leafHashes = s.leafHashes ++ t := by
  intro l
  induction l with
  | nil => intro s; exact ⟨[], by simp [appendMany]⟩
  | cons i rest ih =>
    intro s
    obtain ⟨t, ht⟩ := ih ((appendOp s i).2)
    obtain ⟨h1, hh⟩ := appendOp_leafHashes s i
    refine ⟨[h1] ++ t, ?_⟩
    show (appendMany (appendOp s i).2 rest).leafHashes = _
    rw [ht, hh]
    simp

theorem appendMany_length :
    ∀ (l : List AppendIn) (s : StoreState),
      (appendMany s l).length = s.length + l.length := by
  intro l
  induction l with
  | nil => intro s; simp [appendMany]
  | cons i rest ih =>
    intro s
    show (appendMany (appendOp s i).2 rest).length = _
    rw [ih]
    simp [appendOp_length]
    omega

theorem hexChar_mem : ∀ n < 16, hexChar n ∈ "0123456789abcdef".data := by decide

theorem byteHex_chars (b : Nat) :
    ∀ c ∈ (byteHex b).data, c ∈ "0123456789abcdef".data := by
  intro c hc
  simp only [byteHex, List.mem_cons, List.not_mem_nil, or_false] at hc
  rcases hc with h | h
  · rw [h]; exact hexChar_mem _ (Nat.mod_lt _ (by omega))
  · rw [h]; exact hexChar_mem _ (Nat.mod_lt _ (by omega))

theorem bytesHex_chars (bs : List Nat) :
    ∀ c ∈ (bytesHex bs).data, c ∈ "0123456789abcdef".data := by
  intro c hc
  simp only [bytesHex, List.mem_flatMap, List.mem_map] at hc
  obtain ⟨cs, ⟨b, _, hb⟩, hcs⟩ := hc
  subst hb
  exact byteHex_chars b c hcs

theorem sha256Hex_chars_are_hex (msg : List Nat) :
    ∀ c ∈ (sha256Hex msg).data, c ∈ "0123456789abcdef".data :=
  bytesHex_chars _

theorem iterLogGo_nil (f : Nat) : iterLogGo f [] = [] := by
  cases f <;> simp [iterLogGo]

theorem iterLogGo_congr :
    ∀ (f1 : Nat) (bytes : List Nat) (f2 : Nat),
      bytes.length ≤ f1 → bytes.length ≤ f2 →
      iterLogGo f1 bytes = iterLogGo f2 bytes := by
  intro f1
  induction f1 with
  | zero =>
    intro bytes f2 h1 _
    have hb : bytes = [] := List.length_eq_zero.mp (by omega)
    subst hb
    rw [iterLogGo_nil, iterLogGo_nil]
  | succ f ih =>
    intro bytes f2 h1 h2
    match f2 with
    | 0 =>
      have hb : bytes = [] := List.length_eq_zero.mp (by omega)
      subst hb
      rw [iterLogGo_nil, iterLogGo_nil]
    | g + 1 =>
      by_cases h4 : bytes.length < 4
      · simp [iterLogGo, h4]
      · simp only [iterLogGo, if_neg h4]
        by_cases h5 : (bytes.drop 4).length < be32val (bytes.take 4)
        · rw [if_pos h5, if_pos h5]
        · rw [if_neg h5, if_neg h5]
          congr 1
          apply ih
          · simp only [List.length_drop]
            omega
          · simp only [List.length_drop]
            omega

theorem be32_length (n : Nat) : (be32 n).length = 4 := rfl

theorem be32val_be32 (n : Nat) (h : n < 4294967296) : be32val (be32 n) = n := by
  simp only [be32, be32val]
  omega

theorem frameBytes_length (p : List Nat) :
    (frameBytes p).length = p.length + 5 := by
  simp [frameBytes, be32]

/-- Reading one complete frame at the head of the journal yields its payload
and continues after the separator. -/
theorem iterLog_frame (p rest : List Nat) (hp : p.length < 4294967296) :
    iterLog (frameBytes p ++ rest) = p :: iterLog rest := by
  have hassoc : frameBytes p ++ rest = be32 p.length ++ (p ++ ([10] ++ rest)) := by
    simp [frameBytes]
  have hlen : (frameBytes p ++ rest).length = p.length + 5 + rest.length := by
    simp [frameBytes, be32]
    omega
  have htake : (frameBytes p ++ rest).take 4 = be32 p.length := by
    rw [hassoc]
    exact List.take_left' (be32_length _)
  have hdrop : (frameBytes p ++ rest).drop 4 = p ++ ([10] ++ rest) := by
    rw [hassoc]
    exact List.drop_left' (be32_length _)
  have hval : be32val ((frameBytes p ++ rest).take 4) = p.length := by
    rw [htake]
    exact be32val_be32 _ hp
  obtain ⟨f, hf⟩ : ∃ f, (frameBytes p ++ rest).length = f + 1 :=
    ⟨(frameBytes p ++ rest).length - 1, by omega⟩
  rw [iterLog, hf]
  simp only [iterLogGo, hval, hdrop]
  rw [if_neg (by omega)]
  rw [if_neg (by simp only [List.length_append, List.length_cons, List.length_nil]; omega)]
  rw [List.take_left, List.drop_left]
  have hdrop1 : List.drop 1 ([10] ++ rest) = rest := rfl
  rw [hdrop1]
  congr 1
  rw [iterLog]
  exact iterLogGo_congr f rest rest.length (by omega) le_rfl

/-- A trailing chunk whose header is short, or whose promised payload exceeds
the bytes present, yields nothing. -/
theorem iterLog_incomplete (junk : List Nat)
    (h : junk.length < 4 ∨ junk.length < 4 + be32val (junk.take 4)) :
    iterLog junk = [] := by
  rw [iterLog]
  match hj : junk.length with
  | 0 =>
    have hb : junk = [] := List.length_eq_zero.mp hj
    subst hb
    rfl
  | f + 1 =>
    by_cases h4 : junk.length < 4
    · simp [iterLogGo, h4]
    · have h5 : junk.length - 4 < be32val (junk.take 4) := by omega
      simp [iterLogGo, h4, h5]

/-- A journal made of complete frames followed by an incomplete trailing
chunk reads back exactly the framed payloads. -/
theorem iterLog_frames (ps : List (List Nat)) (junk : List Nat)
    (hps : ∀ p ∈ ps, p.length < 4294967296)
    (hjunk : junk.length < 4 ∨ junk.length < 4 + be32val (junk.take 4)) :
    iterLog ((ps.map frameBytes).flatten ++ junk) = ps := by
  induction ps with
  | nil => simpa using iterLog_incomplete junk hjunk
  | cons p rest ih =>
    simp only [List.map_cons, List.flatten_cons, List.append_assoc]
    rw [iterLog_frame p _ (hps p (by simp))]
    rw [ih (fun q hq => hps q (by simp [hq]))]

/-- Outcome characterisation of `is_valid`: it answers `true` exactly for a
non-revoked certificate whose expiry is empty, unparsable, or an aware time
not strictly in the past; and it raises (the uncaught `TypeError`) exactly
for a non-revoked certificate with a non-empty, naive-parsing expiry. -/
theorem toolCert_isValid_spec (c : ToolCertificate) (now : Int) :
    (c.isValid now = .ok true ↔
      (c.revoked = false ∧
        (c.expires_at = "" ∨ parseIso c.expires_at = .err ∨
         ∃ t, parseIso c.expires_at = .aware t ∧ ¬ t < now))) ∧
    (c.isValid now = .error () ↔
      (c.revoked = false ∧ ¬ c.expires_at = "" ∧
       ∃ t, parseIso c.expires_at = .naive t)) := by
  by_cases hr : c.revoked = true
  · simp [ToolCertificate.isValid, hr]
  · have hr' : c.revoked = false := by revert hr; cases c.revoked <;> simp
    by_cases he : c.expires_at = ""
    · simp [ToolCertificate.isValid, hr', he]
    · rcases hp : parseIso c.expires_at with _ | t | t
      · simp [ToolCertificate.isValid, hr', he, hp]
      · simp [ToolCertificate.isValid, hr', he, hp]
      · by_cases hlt : t < now
        · simp [ToolCertificate.isValid, hr', he, hp, hlt]
        · simp [ToolCertificate.isValid, hr', he, hp, hlt]
          omega

theorem ite_singleton_sublist {α : Type} (c : Prop) [Decidable c] (x : α) :
    (if c then [x] else []).Sublist [x] := by
  split_ifs <;> simp

theorem mem_ite_singleton {b : Prop} [Decidable b] (e x : String) :
    e ∈ (if b then [x] else []) ↔ (e = x ∧ b) := by
  split_ifs with h <;> simp [h]

theorem ite_singleton_eq_nil {b : Prop} [Decidable b] (x : String) :
    (if b then [x] else []) = [] ↔ ¬ b := by
  split_ifs with h <;> simp [h]

/-- The error list of `verify_cert`, spelled out as the append of its five
check pieces (definitional). -/
theorem verifyCert_errors_eq (ca : CA) (c : CertX) (now : Int) :
    (verifyCert ca c now).errors =
      (if c.sigKey ≠ ca.cert.pubKey then ["INVALID_SIGNATURE"] else []) ++
      (if now < c.notBefore then ["NOT_YET_VALID"] else []) ++
      (if now > c.notAfter then ["EXPIRED"] else []) ++
      (if ca.isRevoked c.serial then ["REVOKED"] else []) ++
      (match c.extParentSerial with
       | some p => if ca.isRevoked p then ["PARENT_REVOKED"] else []
       | none => []) := rfl

theorem mem_parent_piece (ca : CA) (o : Option Int) (e : String) :
    e ∈ (match o with
          | some p => if ca.isRevoked p then ["PARENT_REVOKED"] else []
          | none => ([] : List String)) ↔
      (e = "PARENT_REVOKED" ∧ ∃ p, o = some p ∧ ca.isRevoked p = true) := by
  rcases o with _ | p
  · simp
  · rw [mem_ite_singleton]
    simp

theorem parent_piece_eq_nil (ca : CA) (o : Option Int) :
    (match o with
      | some p => if ca.isRevoked p then ["PARENT_REVOKED"] else []
      | none => ([] : List String)) = [] ↔
      ∀ p, o = some p → ca.isRevoked p = false := by
  rcases o with _ | p
  · simp
  · rw [ite_singleton_eq_nil]
    simp

theorem verifyCert_mem_iff (ca : CA) (c : CertX) (now : Int) (e : String) :
    e ∈ (verifyCert ca c now).errors ↔
      ((e = "INVALID_SIGNATURE" ∧ ¬ c.sigKey = ca.cert.pubKey) ∨
       (e = "NOT_YET_VALID" ∧ now < c.notBefore) ∨
       (e = "EXPIRED" ∧ now > c.notAfter) ∨
       (e = "REVOKED" ∧ ca.isRevoked c.serial = true) ∨
       (e = "PARENT_REVOKED" ∧ ∃ p, c.extParentSerial = some p ∧ ca.isRevoked p = true)) := by
  rw [verifyCert_errors_eq]
  simp only [List.mem_append, mem_ite_singleton, mem_parent_piece]
  tauto

theorem verifyCert_valid_iff_errors (ca : CA) (c : CertX) (now : Int) :
    (verifyCert ca c now).valid = true ↔ (verifyCert ca c now).errors = [] := by
  show ((verifyCert ca c now).errors).isEmpty = true ↔ _
  rw [List.isEmpty_iff]

theorem verifyCert_errors_sublist (ca : CA) (c : CertX) (now : Int) :
    (verifyCert ca c now).errors.Sublist
      ["INVALID_SIGNATURE", "NOT_YET_VALID", "EXPIRED", "REVOKED", "PARENT_REVOKED"] := by
  rw [verifyCert_errors_eq]
  have e5sub : (match c.extParentSerial with
      | some p => if ca.isRevoked p then ["PARENT_REVOKED"] else []
      | none => ([] : List String)).Sublist ["PARENT_REVOKED"] := by
    rcases c.extParentSerial with _ | p
    · simp
    · exact ite_singleton_sublist _ _
  exact List.Sublist.append (List.Sublist.append (List.Sublist.append
    (List.Sublist.append (ite_singleton_sublist _ _) (ite_singleton_sublist _ _))
    (ite_singleton_sublist _ _)) (ite_singleton_sublist _ _)) e5sub

theorem revoke_isRevoked_self (ca : CA) (x : Int) (r : String) :
    (ca.revoke x r).isRevoked x = true := by
  simp [CA.revoke, CA.isRevoked]

theorem caLinksOk_iff (l : List CA) (now : Int) :
    caLinksOk l now = true ↔
      List.Chain' (fun a b => (verifyCert b a.cert now).valid = true) l := by
  induction l with
  | nil => simp [caLinksOk]
  | cons a rest ih =>
    cases rest with
    | nil => simp [caLinksOk]
    | cons b rest2 =>
      show ((verifyCert b a.cert now).valid && caLinksOk (b :: rest2) now) = true ↔ _
      rw [Bool.and_eq_true, ih, List.chain'_cons]

/-- Invariant link used for C1: the record returned at position `n` of a
run of auto-chained appends carries as `parent_hash` exactly the `HEAD` of
the store after the first `n` appends, its `seq` is the position, and the
parent is absent exactly at a global genesis. -/
theorem traceRecords_spec :
    ∀ (l : List AppendIn) (s : StoreState),
      s.length = s.leafHashes.length →
      s.headFile = merkleRoot s.leafHashes →
      (∀ i ∈ l, i.parentHash = none) →
      ∀ (n : Nat) (r : ChainRecord), (traceRecords s l).get? n = some r →
        r.parent_hash = (appendMany s (l.take n)).headFile ∧
        r.seq = s.length + n + 1 ∧
        (r.parent_hash = none ↔ s.length + n = 0) := by
  intro l
  induction l with
  | nil =>
    intro s _ _ _ n r hr
    simp [traceRecords] at hr
  | cons i rest ih =>
    intro s hlen hhead hp n r hr
    match n with
    | 0 =>
      simp only [traceRecords, List.get?] at hr
      injection hr with hr
      subst hr
      have hpi : i.parentHash = none := hp i (by simp)
      have hparent : (appendOp s i).1.parent_hash = merkleRoot s.leafHashes := by
        simp [appendOp, hpi]
      refine ⟨?_, rfl, ?_⟩
      · rw [hparent, List.take_zero]
        show _ = s.headFile
        rw [hhead]
      · rw [hparent, merkleRoot_eq_none_iff, ← List.length_eq_zero, ← hlen]
        omega
    | n + 1 =>
      have hstep := ih ((appendOp s i).2)
        (by rw [appendOp_length, hlen]
            obtain ⟨h1, hh⟩ := appendOp_leafHashes s i
            rw [hh]
            simp)
        (appendOp_headFile s i)
        (fun j hj => hp j (by simp [hj]))
        n r (by simpa [traceRecords] using hr)
      refine ⟨hstep.1, ?_, ?_⟩
      · rw [hstep.2.1, appendOp_length]
        omega
      · constructor
        · intro h
          have h2 := hstep.2.2.mp h
          rw [appendOp_length] at h2
          omega
        · intro h
          exact absurd h (by omega)

end TrustChain

/-! # Claim theorems -/

namespace TrustChain

/-- C1.  For every run of appends on a fresh log in which no explicit
`parent_hash` is passed, the record returned at position `n` stores as
`parent_hash` the `HEAD` (Merkle root) as it stood after the previous record
was appended — the root written by append `n`, `none` before any append —
and `parent_hash` is the empty value (`none`) iff the record's `seq` is 1.
(The Merkle engine itself is spec-modelled: `trustchain/v2/merkle.py` is not
under `src/`.) -/
theorem spec_C1 (l : List AppendIn) (hp : ∀ i ∈ l, i.parentHash = none)
    (n : Nat) (r : ChainRecord)
    (hr : (traceRecords emptyStore l).get? n = some r) :
    r.parent_hash = (appendMany emptyStore (l.take n)).headFile ∧
    (r.parent_hash = none ↔ r.seq = 1) := by
  have h := traceRecords_spec l emptyStore rfl rfl hp n r hr
  have e0 : emptyStore.length = 0 := rfl
  rw [e0] at h
  refine ⟨h.1, ?_⟩
  rw [h.2.2, h.2.1]
  omega

theorem spec_C1_witness :
    (∀ i ∈ [c1In], i.parentHash = none) ∧
    (traceRecords emptyStore [c1In]).get? 0 = some c1Rec ∧
    (c1Rec.parent_hash = (appendMany emptyStore ([c1In].take 0)).headFile ∧
     (c1Rec.parent_hash = none ↔ c1Rec.seq = 1)) :=
  ⟨by intro i hi; simp at hi; rw [hi]; rfl, rfl,
   spec_C1 [c1In] (by intro i hi; simp at hi; rw [hi]; rfl) 0 c1Rec rfl⟩

/-- C4.  `consistency_proof` accepts `old_length == 0` whatever the root,
rejects `old_length` beyond the current length, otherwise accepts exactly
when the tree rebuilt over the first `old_length` leaves has root
`old_root`; and every snapshot `(length, root)` actually taken from the
store stays consistent after any further appends.  (The Merkle engine is
spec-modelled: `trustchain/v2/merkle.py` is not under `src/`.) -/
theorem spec_C4 (s : StoreState) (hinv : s.length = s.leafHashes.length) :
    (∀ r, (consistencyProof s 0 r).consistent = true) ∧
    (∀ m r, s.length < m → (consistencyProof s m r).consistent = false) ∧
    (∀ m r, 0 < m → m ≤ s.length →
      ((consistencyProof s m r).consistent = true ↔
        merkleRoot (s.leafHashes.take m) = some r)) ∧
    (∀ root, merkleRoot s.leafHashes = some root →
      ∀ l, (consistencyProof (appendMany s l) s.length root).consistent = true) := by
  refine ⟨?_, ?_, ?_, ?_⟩
  · intro r
    simp [consistencyProof, ConsistencyOut.consistent]
  · intro m r hm
    simp [consistencyProof, hm, ConsistencyOut.consistent]
  · intro m r hm hle
    rw [consistencyProof]
    rw [if_neg (by omega), if_neg (by omega)]
    simp [ConsistencyOut.consistent]
  · intro root hroot l
    have hlen := appendMany_length l s
    obtain ⟨t, ht⟩ := appendMany_leafHashes l s
    have hpos : 0 < s.length := by
      rcases Nat.eq_zero_or_pos s.length with h0 | h
      · exfalso
        have : s.leafHashes = [] := List.length_eq_zero.mp (by omega)
        rw [this] at hroot
        simp [merkleRoot, merkleRootGo] at hroot
      · exact h
    rw [consistencyProof]
    rw [if_neg (by omega), if_neg (by omega)]
    have htake : (appendMany s l).leafHashes.take s.length = s.leafHashes := by
      rw [ht, hinv, List.take_left]
    simp [ConsistencyOut.consistent, htake, hroot]

/-- C2.  `verify` returns a structured result (a total function — no throw
on a negative answer): on a log with zero framed records it is the trivially
valid `empty_chain` result; otherwise `valid` is true iff the Merkle root
recomputed from the framed records of `chain.log` equals the root stored in
`HEAD`, and the result carries both the stored and the recomputed root.
(The Merkle engine is spec-modelled: `trustchain/v2/merkle.py` is not under
`src/`.) -/
theorem spec_C2 (s : StoreState)
    (hinv : s.length = (iterLog s.logBytes).length) :
    (iterLog s.logBytes = [] →
      verifyOp s = .emptyChain ∧ (verifyOp s).valid = true) ∧
    (iterLog s.logBytes ≠ [] →
      ((verifyOp s).valid = true ↔
        merkleRoot (leavesOfLog s.logBytes) = loadHead s) ∧
      verifyOp s = .cmp (decide (merkleRoot (leavesOfLog s.logBytes) = loadHead s))
        (leavesOfLog s.logBytes).length (loadHead s)
        (merkleRoot (leavesOfLog s.logBytes))) := by
  constructor
  · intro h0
    have hz : s.length = 0 := by rw [hinv, h0]; rfl
    constructor
    · simp [verifyOp, hz]
    · simp [verifyOp, hz, VerifyOut.valid]
  · intro hne
    have hz : s.length ≠ 0 := by
      rw [hinv]
      simpa using fun h => hne (List.length_eq_zero.mp h)
    constructor
    · simp [verifyOp, hz, VerifyOut.valid]
    · simp [verifyOp, hz]

theorem spec_C2_witness :
    emptyStore.length = (iterLog emptyStore.logBytes).length ∧
    ((iterLog emptyStore.logBytes = [] →
       verifyOp emptyStore = .emptyChain ∧ (verifyOp emptyStore).valid = true) ∧
     (iterLog emptyStore.logBytes ≠ [] →
       ((verifyOp emptyStore).valid = true ↔
         merkleRoot (leavesOfLog emptyStore.logBytes) = loadHead emptyStore) ∧
       verifyOp emptyStore =
         .cmp (decide (merkleRoot (leavesOfLog emptyStore.logBytes) = loadHead emptyStore))
           (leavesOfLog emptyStore.logBytes).length (loadHead emptyStore)
           (merkleRoot (leavesOfLog emptyStore.logBytes)))) :=
  ⟨rfl, spec_C2 emptyStore rfl⟩

/-- C3.  The id stored by `append` is the first 12 characters of the SHA-256
hex digest of the canonical payload built from the tool identifier, the
canonical JSON of the data payload, the timestamp and the signature; it is a
pure function of those four fields (`contentId`), and every character of it
is lower-case hex. -/
theorem spec_C3 (s : StoreState) (inp : AppendIn) :
    (appendOp s inp).1.id =
      strTake (sha256Hex (utf8 (inp.tool ++ "|" ++ dumps inp.data ++ "|" ++
        inp.timestamp ++ "|" ++ inp.signature))) 12 ∧
    (appendOp s inp).1.id = contentId inp.tool inp.data inp.timestamp inp.signature ∧
    ∀ c ∈ ((appendOp s inp).1.id).data, c ∈ "0123456789abcdef".data := by
  refine ⟨rfl, rfl, ?_⟩
  intro c hc
  have hc' : c ∈ ((sha256Hex (utf8 (inp.tool ++ "|" ++ dumps inp.data ++ "|" ++
      inp.timestamp ++ "|" ++ inp.signature))).data.take 12) := hc
  exact sha256Hex_chars_are_hex _ c (List.take_subset _ _ hc')

/-- C9 (amended).  Reading a journal whose complete frames are followed by a
truncated trailing chunk yields exactly the complete frames' payloads — the
partial record is treated as absent by iteration (and hence by load and
verification, which consume the iterator) — BUT the next append does not
overwrite the partial frame: `_append_to_log` opens the file in append mode
and writes the new frame after the truncated bytes, so the newly appended
record need not be visible to subsequent reads. -/
theorem spec_C9_amended (ps : List (List Nat)) (junk q : List Nat)
    (hps : ∀ p ∈ ps, p.length < 4294967296)
    (hjunk : junk.length < 4 ∨ junk.length < 4 + be32val (junk.take 4)) :
    iterLog ((ps.map frameBytes).flatten ++ junk) = ps ∧
    appendToLog ((ps.map frameBytes).flatten ++ junk) q =
      ((ps.map frameBytes).flatten ++ junk) ++ frameBytes q ∧
    loadStore ((ps.map frameBytes).flatten ++ junk) none =
      { logBytes := (ps.map frameBytes).flatten ++ junk
        headFile := none
        leafHashes := ps.map sha256Hex
        length := ps.length } := by
  have hiter := iterLog_frames ps junk hps hjunk
  refine ⟨hiter, rfl, ?_⟩
  simp [loadStore, leavesOfLog, hiter]

theorem spec_C9_amended_witness :
    ((∀ p ∈ [utf8 "r1"], p.length < 4294967296) ∧
     (([0, 0, 4, 0] : List Nat).length < 4 ∨
       ([0, 0, 4, 0] : List Nat).length < 4 + be32val (([0, 0, 4, 0] : List Nat).take 4))) ∧
    (iterLog (([utf8 "r1"].map frameBytes).flatten ++ [0, 0, 4, 0]) = [utf8 "r1"] ∧
     appendToLog (([utf8 "r1"].map frameBytes).flatten ++ [0, 0, 4, 0]) (utf8 "q") =
       (([utf8 "r1"].map frameBytes).flatten ++ [0, 0, 4, 0]) ++ frameBytes (utf8 "q") ∧
     loadStore (([utf8 "r1"].map frameBytes).flatten ++ [0, 0, 4, 0]) none =
       { logBytes := ([utf8 "r1"].map frameBytes).flatten ++ [0, 0, 4, 0]
         headFile := none
         leafHashes := [utf8 "r1"].map sha256Hex
         length := [utf8 "r1"].length }) :=
  ⟨⟨by decide, by decide⟩,
   spec_C9_amended [utf8 "r1"] [0, 0, 4, 0] (utf8 "q") (by decide) (by decide)⟩

/-- C9 (counterexample).  On the concrete crashed journal `c9Bytes` (one
complete frame `"r1"`, then a header promising 1024 absent bytes), the
re-opened store sees exactly `["r1"]`; appending a record leaves the partial
frame in place, and a subsequent read still yields only `["r1"]` — the newly
appended record's framed payload is NOT visible, refuting "the next append
overwrites the partial frame so that the newly appended record is visible to
subsequent reads". -/
theorem spec_C9_counterexample :
    iterLog c9Store.logBytes = [utf8 "r1"] ∧
    iterLog (appendOp c9Store c9In).2.logBytes = [utf8 "r1"] ∧
    ¬ (utf8 (dumps (recordJson (appendOp c9Store c9In).1)) ∈
        iterLog (appendOp c9Store c9In).2.logBytes) := by
  refine ⟨by decide, by decide, ?_⟩
  intro hmem
  rw [show iterLog (appendOp c9Store c9In).2.logBytes = [utf8 "r1"] from by decide] at hmem
  simp at hmem
  exact absurd hmem (by decide)

/-- C5.  For a certificate carrying the parent-agent-serial extension,
revoking the parent's serial makes `verify_cert` return an invalid result
whose error list contains `PARENT_REVOKED`; revoking the certificate's own
serial makes it return an invalid result with `REVOKED`. -/
theorem spec_C5 (ca : CA) (c : CertX) (now : Int) (p : Int) (r1 r2 : String)
    (hp : c.extParentSerial = some p) :
    ((verifyCert (ca.revoke p r1) c now).valid = false ∧
     "PARENT_REVOKED" ∈ (verifyCert (ca.revoke p r1) c now).errors) ∧
    ((verifyCert (ca.revoke c.serial r2) c now).valid = false ∧
     "REVOKED" ∈ (verifyCert (ca.revoke c.serial r2) c now).errors) := by
  constructor
  · have hrev := revoke_isRevoked_self ca p r1
    constructor
    · simp [verifyCert, hp, hrev, List.isEmpty_iff]
    · simp [verifyCert, hp, hrev]
  · have hrev := revoke_isRevoked_self ca c.serial r2
    constructor
    · simp [verifyCert, hp, hrev, List.isEmpty_iff]
    · simp [verifyCert, hp, hrev]

theorem spec_C5_witness :
    c5Sub.extParentSerial = some 900 ∧
    (((verifyCert (c5CA.revoke 900 "compromised") c5Sub 10).valid = false ∧
      "PARENT_REVOKED" ∈ (verifyCert (c5CA.revoke 900 "compromised") c5Sub 10).errors) ∧
     ((verifyCert (c5CA.revoke c5Sub.serial "bad") c5Sub 10).valid = false ∧
      "REVOKED" ∈ (verifyCert (c5CA.revoke c5Sub.serial "bad") c5Sub 10).errors)) :=
  ⟨rfl, spec_C5 c5CA c5Sub 10 900 "compromised" "bad" rfl⟩

/-- C6.  `verify_cert` runs its checks in order — signature, validity window
(not-yet-valid, expired), own-serial revocation, parent-serial revocation —
accumulating every failed check's code into one list whose order follows the
checks (it is a sublist of the full ordered code list); each code appears
exactly when its check fails, `valid` holds iff the list is empty (iff every
check passes), and the result is returned, never thrown. -/
theorem spec_C6 (ca : CA) (c : CertX) (now : Int) :
    ((verifyCert ca c now).valid = true ↔ (verifyCert ca c now).errors = []) ∧
    ((verifyCert ca c now).valid = true ↔
      (c.sigKey = ca.cert.pubKey ∧ c.notBefore ≤ now ∧ now ≤ c.notAfter ∧
       ca.isRevoked c.serial = false ∧
       ∀ p, c.extParentSerial = some p → ca.isRevoked p = false)) ∧
    ("INVALID_SIGNATURE" ∈ (verifyCert ca c now).errors ↔ ¬ c.sigKey = ca.cert.pubKey) ∧
    ("NOT_YET_VALID" ∈ (verifyCert ca c now).errors ↔ now < c.notBefore) ∧
    ("EXPIRED" ∈ (verifyCert ca c now).errors ↔ now > c.notAfter) ∧
    ("REVOKED" ∈ (verifyCert ca c now).errors ↔ ca.isRevoked c.serial = true) ∧
    ("PARENT_REVOKED" ∈ (verifyCert ca c now).errors ↔
      ∃ p, c.extParentSerial = some p ∧ ca.isRevoked p = true) ∧
    (verifyCert ca c now).errors.Sublist
      ["INVALID_SIGNATURE", "NOT_YET_VALID", "EXPIRED", "REVOKED", "PARENT_REVOKED"] := by
  refine ⟨verifyCert_valid_iff_errors ca c now, ?_, ?_, ?_, ?_, ?_, ?_,
    verifyCert_errors_sublist ca c now⟩
  · rw [verifyCert_valid_iff_errors, verifyCert_errors_eq]
    simp only [List.append_eq_nil, ite_singleton_eq_nil, parent_piece_eq_nil,
      not_not, not_lt, gt_iff_lt]
    constructor
    · rintro ⟨⟨⟨⟨h1, h2⟩, h3⟩, h4⟩, h5⟩
      exact ⟨h1, h2, h3, by revert h4; cases ca.isRevoked c.serial <;> simp, h5⟩
    · rintro ⟨h1, h2, h3, h4, h5⟩
      exact ⟨⟨⟨⟨h1, h2⟩, h3⟩, by simp [h4]⟩, h5⟩
  · rw [verifyCert_mem_iff]
    simp
  · rw [verifyCert_mem_iff]
    simp
  · rw [verifyCert_mem_iff]
    simp
  · rw [verifyCert_mem_iff]
    simp
  · rw [verifyCert_mem_iff]
    simp

/-- C7.  `verify_chain` returns true exactly when the chain is non-empty,
the leaf verifies against the first CA, every CA's certificate verifies
against the next CA, and the last CA's certificate is self-signed; any
failure anywhere gives false. -/
theorem spec_C7 (leaf : CertX) (chain : List CA) (now : Int) :
    verifyChain leaf chain now = true ↔
      ((∃ ca0 rest, chain = ca0 :: rest ∧ (verifyCert ca0 leaf now).valid = true) ∧
       List.Chain' (fun a b => (verifyCert b a.cert now).valid = true) chain ∧
       (∃ lastCA, chain.getLast? = some lastCA ∧ selfSignedOk lastCA.cert = true)) := by
  cases chain with
  | nil => simp [verifyChain]
  | cons ca0 rest =>
    rcases hl : (ca0 :: rest).getLast? with _ | lastCA
    · simp at hl
    · constructor
      · intro h
        replace h : ((verifyCert ca0 leaf now).valid && caLinksOk (ca0 :: rest) now &&
            (match (ca0 :: rest).getLast? with
             | some l => selfSignedOk l.cert
             | none => false)) = true := h
        rw [hl, Bool.and_eq_true, Bool.and_eq_true] at h
        obtain ⟨⟨hA, hB⟩, hC⟩ := h
        exact ⟨⟨ca0, rest, rfl, hA⟩, (caLinksOk_iff _ _).mp hB, lastCA, rfl, hC⟩
      · rintro ⟨⟨ca0', rest', heq, hA⟩, hB, lastCA', hl', hC⟩
        cases heq
        have hself : (match (ca0 :: rest).getLast? with
            | some l => selfSignedOk l.cert
            | none => false) = true := by
          rw [hl]
          injection hl' with h2
          rw [h2]
          exact hC
        show ((verifyCert ca0 leaf now).valid && caLinksOk (ca0 :: rest) now &&
            (match (ca0 :: rest).getLast? with
             | some l => selfSignedOk l.cert
             | none => false)) = true
        rw [Bool.and_eq_true, Bool.and_eq_true]
        exact ⟨⟨hA, (caLinksOk_iff _ _).mpr hB⟩, hself⟩

/-- C8 (amended).  `verify` returns true iff a certificate exists for the
tool's qualified name, the certificate's `is_valid` answers true, and the
current source hash equals the certificate's; a successful check leaves the
registry unchanged; each failed check appends exactly one violation entry
carrying a type among the four codes and the timestamp; and `verify` raises
(rather than returning) exactly when `is_valid` raises its uncaught
`TypeError`, which happens exactly for a non-revoked certificate whose
non-empty `expires_at` parses to a timezone-naive datetime.  `is_valid`
answers true iff the certificate is not revoked and its `expires_at` is
empty, does not parse (a malformed expiry is treated as no expiry), or
parses to an aware time not strictly before now. -/
theorem spec_C8_amended (reg : RegistryState) (f : PyFunc) (now : Int) (ts : String) :
    (registryVerify reg f now ts = .ok (true, reg) ↔
      ∃ cert, lookupCert reg (f.moduleName ++ "." ++ f.qualname) = some cert ∧
        cert.isValid now = .ok true ∧ computeCodeHash f = cert.code_hash) ∧
    (∀ reg2, registryVerify reg f now ts = .ok (true, reg2) → reg2 = reg) ∧
    (registryVerify reg f now ts = .error () ↔
      ∃ cert, lookupCert reg (f.moduleName ++ "." ++ f.qualname) = some cert ∧
        cert.isValid now = .error ()) ∧
    (∀ reg2, registryVerify reg f now ts = .ok (false, reg2) →
      ∃ v : Violation,
        reg2.violations = reg.violations ++ [v] ∧
        v.timestamp = ts ∧
        v.type ∈ ["NO_CERTIFICATE", "REVOKED", "EXPIRED", "CODE_TAMPERED"]) ∧
    (∀ c : ToolCertificate,
      (c.isValid now = .ok true ↔
        (c.revoked = false ∧
          (c.expires_at = "" ∨ parseIso c.expires_at = .err ∨
           ∃ t, parseIso c.expires_at = .aware t ∧ ¬ t < now))) ∧
      (c.isValid now = .error () ↔
        (c.revoked = false ∧ ¬ c.expires_at = "" ∧
         ∃ t, parseIso c.expires_at = .naive t))) := by
  refine ⟨?_, ?_, ?_, ?_, fun c => toolCert_isValid_spec c now⟩
  · rcases hlk : lookupCert reg (f.moduleName ++ "." ++ f.qualname) with _ | cert
    · simp [registryVerify, hlk]
    · rcases hv : cert.isValid now with e | b
      · cases e
        simp [registryVerify, hlk, hv]
      · match b with
        | false => simp [registryVerify, hlk, hv]
        | true =>
          by_cases hh : computeCodeHash f = cert.code_hash
          · simp [registryVerify, hlk, hv, hh]
          · simp [registryVerify, hlk, hv, hh]
  · intro reg2 hok
    rcases hlk : lookupCert reg (f.moduleName ++ "." ++ f.qualname) with _ | cert
    · exact absurd hok (by simp [registryVerify, hlk])
    · rcases hv : cert.isValid now with e | b
      · cases e
        exact absurd hok (by simp [registryVerify, hlk, hv])
      · match b with
        | false => exact absurd hok (by simp [registryVerify, hlk, hv])
        | true =>
          by_cases hh : computeCodeHash f = cert.code_hash
          · have := hok
            simp [registryVerify, hlk, hv, hh] at this
            rw [this]
          · exact absurd hok (by simp [registryVerify, hlk, hv, hh])
  · rcases hlk : lookupCert reg (f.moduleName ++ "." ++ f.qualname) with _ | cert
    · simp [registryVerify, hlk]
    · rcases hv : cert.isValid now with e | b
      · cases e
        simp [registryVerify, hlk, hv]
      · match b with
        | false => simp [registryVerify, hlk, hv]
        | true =>
          by_cases hh : computeCodeHash f = cert.code_hash
          · simp [registryVerify, hlk, hv, hh]
          · simp [registryVerify, hlk, hv, hh]
  · intro reg2 hfail
    rcases hlk : lookupCert reg (f.moduleName ++ "." ++ f.qualname) with _ | cert
    · refine ⟨⟨f.moduleName ++ "." ++ f.qualname, "NO_CERTIFICATE",
        "Tool has no certificate", ts⟩, ?_, rfl, by simp⟩
      have := hfail
      simp [registryVerify, hlk] at this
      rw [← this]
      simp [addViolation]
    · rcases hv : cert.isValid now with e | b
      · cases e
        exact absurd hfail (by simp [registryVerify, hlk, hv])
      · match b with
        | false =>
          by_cases hr : cert.revoked = true
          · refine ⟨⟨f.moduleName ++ "." ++ f.qualname, "REVOKED",
              "Certificate is " ++ pyLower "REVOKED", ts⟩, ?_, rfl, by simp⟩
            have := hfail
            simp [registryVerify, hlk, hv, hr] at this
            rw [← this]
            simp [addViolation]
          · have hr' : cert.revoked = false := by
              revert hr; cases cert.revoked <;> simp
            refine ⟨⟨f.moduleName ++ "." ++ f.qualname, "EXPIRED",
              "Certificate is " ++ pyLower "EXPIRED", ts⟩, ?_, rfl, by simp⟩
            have := hfail
            simp [registryVerify, hlk, hv, hr'] at this
            rw [← this]
            simp [addViolation]
        | true =>
          by_cases hh : computeCodeHash f = cert.code_hash
          · exact absurd hfail (by simp [registryVerify, hlk, hv, hh])
          · refine ⟨⟨f.moduleName ++ "." ++ f.qualname, "CODE_TAMPERED",
              "Code hash mismatch: expected " ++ strTake cert.code_hash 16 ++
                "..., got " ++ strTake (computeCodeHash f) 16 ++ "...", ts⟩, ?_, rfl, by simp⟩
            have := hfail
            simp [registryVerify, hlk, hv, hh] at this
            rw [← this]
            simp [addViolation]

/-- C8 (counterexample).  Two concrete refutations of the claim as stated.
First, the registry `c8Reg` holds a certificate whose `expires_at` is the
unparsable string `"never"` — neither empty nor a time in the future, so the
claim's validity definition rejects it — yet `verify` returns true:
`is_valid` swallows the `ValueError` from `fromisoformat`.  Second, the
registry `c8RegNaive` holds a certificate whose `expires_at` parses to a
timezone-naive datetime: `is_valid` raises an uncaught `TypeError` and
`verify` throws instead of returning false with a violation. -/
theorem spec_C8_counterexample :
    registryVerify c8Reg c8Func 0 "t" = .ok (true, c8Reg) ∧
    lookupCert c8Reg ("mymod" ++ "." ++ "my_tool") = some c8Cert ∧
    specToolCertValid c8Cert 0 = false ∧
    registryVerify c8RegNaive c8Func 0 "t" = .error () ∧
    lookupCert c8RegNaive ("mymod" ++ "." ++ "my_tool") = some c8CertNaive := by
  exact ⟨rfl, by decide, by decide, rfl, by decide⟩

/-- C10.  Exporting an issued agent certificate to PEM and re-importing it
yields a wrapper whose `agent_id`, model hash, prompt hash, tool versions,
capabilities, parent serial, not-before, not-after and serial number all
equal the original's: `from_pem` keeps only the certificate, and every one
of those accessors reads the certificate alone. -/
theorem spec_C10 (ca : CA) (args : IssueArgs) (now : Int) (agentKey : Nat) :
    (AgentCertificate.fromPem
        (AgentCertificate.toPem (issueAgentCert ca args now agentKey).1)).agentId =
      (issueAgentCert ca args now agentKey).1.agentId ∧
    (AgentCertificate.fromPem
        (AgentCertificate.toPem (issueAgentCert ca args now agentKey).1)).modelHash =
      (issueAgentCert ca args now agentKey).1.modelHash ∧
    (AgentCertificate.fromPem
        (AgentCertificate.toPem (issueAgentCert ca args now agentKey).1)).promptHash =
      (issueAgentCert ca args now agentKey).1.promptHash ∧
    (AgentCertificate.fromPem
        (AgentCertificate.toPem (issueAgentCert ca args now agentKey).1)).toolVersions =
      (issueAgentCert ca args now agentKey).1.toolVersions ∧
    (AgentCertificate.fromPem
        (AgentCertificate.toPem (issueAgentCert ca args now agentKey).1)).capList =
      (issueAgentCert ca args now agentKey).1.capList ∧
    (AgentCertificate.fromPem
        (AgentCertificate.toPem (issueAgentCert ca args now agentKey).1)).parentSerial =
      (issueAgentCert ca args now agentKey).1.parentSerial ∧
    (AgentCertificate.fromPem
        (AgentCertificate.toPem (issueAgentCert ca args now agentKey).1)).notBeforeT =
      (issueAgentCert ca args now agentKey).1.notBeforeT ∧
    (AgentCertificate.fromPem
        (AgentCertificate.toPem (issueAgentCert ca args now agentKey).1)).notAfterT =
      (issueAgentCert ca args now agentKey).1.notAfterT ∧
    (AgentCertificate.fromPem
        (AgentCertificate.toPem (issueAgentCert ca args now agentKey).1)).serialNumber =
      (issueAgentCert ca args now agentKey).1.serialNumber :=
  ⟨rfl, rfl, rfl, rfl, rfl, rfl, rfl, rfl, rfl⟩

theorem spec_C4_witness :
    c4Store.length = c4Store.leafHashes.length ∧
    ((∀ r, (consistencyProof c4Store 0 r).consistent = true) ∧
     (∀ m r, c4Store.length < m → (consistencyProof c4Store m r).consistent = false) ∧
     (∀ m r, 0 < m → m ≤ c4Store.length →
       ((consistencyProof c4Store m r).consistent = true ↔
         merkleRoot (c4Store.leafHashes.take m) = some r)) ∧
     (∀ root, merkleRoot c4Store.leafHashes = some root →
       ∀ l, (consistencyProof (appendMany c4Store l) c4Store.length root).consistent = true)) :=
  ⟨rfl, spec_C4 c4Store rfl⟩

end TrustChain
